import Mathlib

/-!
# nodejs_auth: signup, login and password reset

A shallow embedding of the request handlers of `index.js` (and of the earlier
copy `node_auth_app/index.js`, whose reset-password handlers differ) together
with the properties of the login, signup and reset-token flows.

Modelling conventions.

* The `users` collection is a list of documents in insertion order.  The
  position of a document plays the role of its `_id`: `User.findOne` returns the
  first matching document together with its position and `user.save()` writes
  the modified document back at that position.
* `req.session` is the pair of `session.user` and the `connect-flash` queue for
  the key `'message'`.
* Everything a handler obtains from outside the process (the clock, the outcome
  of the database lookup and of `save`, `bcrypt`, `crypto.randomBytes`, the mail
  transport) is a field of `Env`, one value per request.
* A handler returns the new store, the new session and the response it sent, or
  `none` for the response when it returns without sending one.
-/

namespace NodeAuth

/-- A document of the `User` model (`UserSchema`).  Dates are milliseconds
since the epoch, as returned by `Date.now()`. -/
structure User where
  name : String
  email : String
  password : String
  resetPasswordToken : Option String
  resetPasswordExpires : Option Nat
  deriving DecidableEq, Repr

/-- The `users` collection. -/
abbrev Store := List User

/-- The part of `req.session` the handlers use. -/
structure Session where
  user : Option User
  flash : List String
  deriving DecidableEq, Repr

/-- What a handler sends back. -/
inductive Response where
  | redirect (path : String)
  | render (view : String) (user : Option User) (token : Option String)
      (message : List String)
  | sendFile (file : String)
  | send404
  deriving DecidableEq, Repr

/-- The outside world as seen by one request. -/
structure Env where
  /-- value of `Date.now()` -/
  now : Nat
  /-- whether `User.findOne` calls back with `err` set -/
  findErr : Bool
  /-- result of `bcrypt.hash(password, 10, cb)`; `none` when `cb` receives `err` -/
  hash : String → Option String
  /-- result of `bcrypt.compare(password, hash, cb)`; `none` when `cb` receives `err` -/
  compare : String → String → Option Bool
  /-- whether the promise of `save()` rejects -/
  saveErr : Bool
  /-- value of `crypto.randomBytes(20).toString('hex')` -/
  randomToken : String
  /-- whether `transporter.sendMail` calls back with `error` set -/
  mailErr : Bool

/-- Server-side state visible to one request: the collection and the session of
the requesting client. -/
structure State where
  store : Store
  session : Session
  deriving DecidableEq, Repr

/-- Outcome of a handler. -/
structure Result where
  store : Store
  session : Session
  response : Option Response
  deriving DecidableEq, Repr

/-- Call `req.flash('message', msg)`. -/
def Session.pushFlash (s : Session) (msg : String) : Session :=
  { s with flash := s.flash ++ [msg] }

/-- Call `req.flash('message')`: the queue is handed out and emptied. -/
def Session.takeFlash (s : Session) : List String × Session :=
  (s.flash, { s with flash := [] })

/-- Query `User.findOne(filter)`: first matching document and its position. -/
def findOne (p : User → Bool) : Store → Option (Nat × User)
  | [] => none
  | u :: us =>
    if p u then some (0, u)
    else (findOne p us).map fun r => (r.1 + 1, r.2)

/-- Filter `{ email }`. -/
def byEmail (email : String) (u : User) : Bool :=
  u.email == email

/-- Filter `{ resetPasswordToken: token, resetPasswordExpires: { $gt: now } }`. -/
def byToken (token : String) (now : Nat) (u : User) : Bool :=
  u.resetPasswordToken == some token &&
    match u.resetPasswordExpires with
    | some e => decide (e > now)
    | none => false

/-- Flash a message and redirect, leaving the store and `session.user` alone. -/
def flashRedirect (st : State) (msg path : String) : Result :=
  ⟨st.store, st.session.pushFlash msg, some (.redirect path)⟩

/-- Render a page with `req.flash('message')[0]` as its message. -/
def renderWithMessage (st : State) (view : String) (user : Option User) : Result :=
  let f := st.session.takeFlash
  ⟨st.store, f.2, some (.render view user none (f.1.take 1))⟩

/-- Handler `app.get('/')`. -/
def getRoot (st : State) : Result :=
  renderWithMessage st "index" st.session.user

/-- Handler `app.get('/login')`. -/
def getLogin (st : State) : Result :=
  renderWithMessage st "login" none

/-- Handler `app.post('/login')`. -/
def postLogin (env : Env) (st : State) (email password : String) : Result :=
  if env.findErr then
    flashRedirect st "An error occurred" "/login"
  else
    match findOne (byEmail email) st.store with
    | none => flashRedirect st "Email or password is incorrect" "/login"
    | some (_, user) =>
      match env.compare password user.password with
      | none => flashRedirect st "An error occurred" "/login"
      | some true =>
        ⟨st.store, { st.session with user := some user }, some (.redirect "/")⟩
      | some false => flashRedirect st "Email or password is incorrect" "/login"

/-- Handler `app.get('/reset-password/:token')`. -/
def getResetPassword (env : Env) (st : State) (token : String) : Result :=
  if env.findErr then
    flashRedirect st "An error occurred" "/forgot-password"
  else
    match findOne (byToken token env.now) st.store with
    | none =>
      flashRedirect st "Password reset token is invalid or has expired" "/forgot-password"
    | some _ =>
      let f := st.session.takeFlash
      ⟨st.store, f.2, some (.render "reset-password" none (some token) f.1)⟩

/-- Handler `app.post('/reset-password/:token')`. -/
def postResetPassword (env : Env) (st : State) (token password confirmPassword : String) :
    Result :=
  if password ≠ confirmPassword then
    flashRedirect st "Passwords do not match" ("/reset-password/" ++ token)
  else if env.findErr then
    flashRedirect st "An error occurred" "/forgot-password"
  else
    match findOne (byToken token env.now) st.store with
    | none =>
      flashRedirect st "Password reset token is invalid or has expired" "/forgot-password"
    | some (i, user) =>
      match env.hash password with
      | none =>
        flashRedirect st "An error occurred during password hashing"
          ("/reset-password/" ++ token)
      | some hash =>
        let user1 : User :=
          { user with password := hash, resetPasswordToken := none,
                      resetPasswordExpires := none }
        if env.saveErr then
          flashRedirect st "Error saving new password" ("/reset-password/" ++ token)
        else
          ⟨st.store.set i user1, st.session.pushFlash "Password reset successfully",
            some (.redirect "/login")⟩

/-- Handler `app.get('/forgot-password')`. -/
def getForgotPassword (st : State) : Result :=
  renderWithMessage st "forgot-password" none

/-- Handler `app.post('/forgot-password')`. -/
def postForgotPassword (env : Env) (st : State) (email : String) : Result :=
  if env.findErr then
    flashRedirect st "An error occurred" "/forgot-password"
  else
    match findOne (byEmail email) st.store with
    | none => flashRedirect st "No user with that email address found" "/forgot-password"
    | some (i, user) =>
      let user1 : User :=
        { user with resetPasswordToken := some env.randomToken,
                    resetPasswordExpires := some (env.now + 3600000) }
      if env.saveErr then
        flashRedirect st "An error occurred" "/forgot-password"
      else if env.mailErr then
        -- `console.log('Error sending email: ', error)` and nothing else
        ⟨st.store.set i user1, st.session, none⟩
      else
        ⟨st.store.set i user1, st.session.pushFlash "Password reset email sent",
          some (.redirect "/forgot-password")⟩

/-- Handler `app.get('/signup')`. -/
def getSignup (st : State) : Result :=
  renderWithMessage st "signup" none

/-- Handler `app.post('/signup')`. -/
def postSignup (env : Env) (st : State) (name email password confirmpassword : String) :
    Result :=
  if password ≠ confirmpassword then
    flashRedirect st "Passwords do not match" "/signup"
  else if env.findErr then
    flashRedirect st "An error occurred" "/signup"
  else
    match findOne (byEmail email) st.store with
    | some _ => flashRedirect st "Email already exists" "/signup"
    | none =>
      match env.hash password with
      | none => flashRedirect st "An error occurred" "/signup"
      | some hash =>
        let newUser : User := ⟨name, email, hash, none, none⟩
        if env.saveErr then
          flashRedirect st "An error occurred" "/signup"
        else
          ⟨st.store ++ [newUser], { st.session with user := some newUser },
            some (.redirect "/")⟩

/-- Handler `app.get('/logout')`. -/
def getLogout (st : State) : Result :=
  ⟨st.store, { st.session with user := none }, some (.redirect "/")⟩

/-- Handlers `app.get('/home')`, `'/about'`, `'/contact'`. -/
def getStatic (st : State) (file : String) : Result :=
  ⟨st.store, st.session, some (.sendFile file)⟩

/-- The catch-all `app.use` for unmatched routes. -/
def notFound (st : State) : Result :=
  ⟨st.store, st.session, some .send404⟩

/-- The routes of the application with the fields each handler reads. -/
inductive Request where
  | getRoot
  | getLogin
  | postLogin (email password : String)
  | getResetPassword (token : String)
  | postResetPassword (token password confirmPassword : String)
  | getForgotPassword
  | postForgotPassword (email : String)
  | getSignup
  | postSignup (name email password confirmpassword : String)
  | getLogout
  | getHome
  | getAbout
  | getContact
  | other
  deriving DecidableEq, Repr

/-- The router: dispatch a request to its handler. -/
def handle (env : Env) (st : State) : Request → Result
  | .getRoot => getRoot st
  | .getLogin => getLogin st
  | .postLogin email password => postLogin env st email password
  | .getResetPassword token => getResetPassword env st token
  | .postResetPassword token password confirmPassword =>
    postResetPassword env st token password confirmPassword
  | .getForgotPassword => getForgotPassword st
  | .postForgotPassword email => postForgotPassword env st email
  | .getSignup => getSignup st
  | .postSignup name email password confirmpassword =>
    postSignup env st name email password confirmpassword
  | .getLogout => getLogout st
  | .getHome => getStatic st "home.html"
  | .getAbout => getStatic st "about.html"
  | .getContact => getStatic st "contact.html"
  | .other => notFound st

/-- Stores the running server can hold: starting from the empty collection,
any client (any session) sends any request under any behaviour of the outside
world. -/
inductive Reachable : Store → Prop where
  | empty : Reachable []
  | step (env : Env) (store : Store) (session : Session) (req : Request) :
      Reachable store → Reachable (handle env ⟨store, session⟩ req).store

/-- A sequence of signup submissions `(name, email, password, confirmpassword)`,
each under its own outside world, run one after the other from one session. -/
def runSignups : State → List (Env × String × String × String × String) → State
  | st, [] => st
  | st, (env, name, email, password, confirmpassword) :: rest =>
    let r := postSignup env st name email password confirmpassword
    runSignups ⟨r.store, r.session⟩ rest

/-- No two documents of the collection share an email (the `unique: true`
index of `UserSchema`). -/
def UniqueEmails (store : Store) : Prop :=
  (store.map User.email).Nodup

instance (store : Store) : Decidable (UniqueEmails store) := by
  unfold UniqueEmails; infer_instance

namespace node_auth_app

/-- Handler `app.get('/reset-password/:token')` of `node_auth_app/index.js`: the
callback ignores `err` and tests `!user` only. -/
def getResetPassword (env : Env) (st : State) (token : String) : Result :=
  match (if env.findErr then none else findOne (byToken token env.now) st.store) with
  | none =>
    flashRedirect st "Password reset token is invalid or has expired" "/forgot-password"
  | some _ =>
    let f := st.session.takeFlash
    ⟨st.store, f.2, some (.render "reset-password" none (some token) f.1)⟩

/-- Handler `app.post('/reset-password/:token')` of `node_auth_app/index.js`. -/
def postResetPassword (env : Env) (st : State) (token password confirmPassword : String) :
    Result :=
  if password ≠ confirmPassword then
    flashRedirect st "Passwords do not match" ("/reset-password/" ++ token)
  else
    match (if env.findErr then none else findOne (byToken token env.now) st.store) with
    | none =>
      flashRedirect st "Password reset token is invalid or has expired" "/forgot-password"
    | some (i, user) =>
      match env.hash password with
      | none => flashRedirect st "An error occurred" "/signup"
      | some hash =>
        let user1 : User :=
          { user with password := hash, resetPasswordToken := none,
                      resetPasswordExpires := none }
        if env.saveErr then
          flashRedirect st "An error occurred" "/signup"
        else
          ⟨st.store.set i user1, { st.session with user := some user1 },
            some (.redirect "/")⟩

end node_auth_app

/-- Some record holds `token` with an expiry strictly after `now`. -/
def HoldsLiveToken (store : Store) (token : String) (now : Nat) : Prop :=
  ∃ u ∈ store, u.resetPasswordToken = some token ∧
    ∃ e, u.resetPasswordExpires = some e ∧ now < e

/-- The rejection of an unknown or expired token: flash
`Password reset token is invalid or has expired`, redirect to `/forgot-password`,
store and `session.user` untouched. -/
def rejectedAsInvalid (st : State) : Result :=
  flashRedirect st "Password reset token is invalid or has expired" "/forgot-password"

/-- The messages `POST /reset-password/:token` can flash once the lookup has
found a record for the token. -/
def afterLookupMessages : List String :=
  ["An error occurred during password hashing", "Error saving new password",
    "Password reset successfully"]

/-- At most one record of the collection holds `token`. -/
def AtMostOneHolder (store : Store) (token : String) : Prop :=
  ∀ (j k : Nat) (v w : User), store[j]? = some v → store[k]? = some w →
    v.resetPasswordToken = some token → w.resetPasswordToken = some token → j = k

/-- No record of the collection holds `token`. -/
def NoHolder (store : Store) (token : String) : Prop :=
  ∀ u ∈ store, u.resetPasswordToken ≠ some token

/-- Stores that can follow a given one through further requests of any clients,
as long as no forgot-password request among them draws `token` again. -/
inductive FollowsWithout (token : String) (store : Store) : Store → Prop where
  | refl : FollowsWithout token store store
  | step (env : Env) (store2 : Store) (session : Session) (req : Request) :
      FollowsWithout token store store2 →
      (∀ email, req = .postForgotPassword email → env.randomToken ≠ token) →
      FollowsWithout token store (handle env ⟨store2, session⟩ req).store

/-- The verifier assumed for the reset-then-login property: comparing `p`
against a hash produced for `q` succeeds without error and says whether
`p = q`. -/
def IdealVerifier (hashEnv cmpEnv : Env) : Prop :=
  ∀ p q hq, hashEnv.hash q = some hq → cmpEnv.compare p hq = some (decide (p = q))

/-- No record carries an expiry later than one hour after `now`. -/
def ExpiriesWithinHour (store : Store) (now : Nat) : Prop :=
  ∀ u ∈ store, ∀ e, u.resetPasswordExpires = some e → e ≤ now + 3600000

/-- Stores the server can hold at time `t` when it starts empty and `Date.now()`
never runs backwards from one request to the next. -/
inductive ReachableBy : Nat → Store → Prop where
  | empty (t : Nat) : ReachableBy t []
  | step (t : Nat) (env : Env) (store : Store) (session : Session) (req : Request) :
      ReachableBy t store → t ≤ env.now →
      ReachableBy env.now (handle env ⟨store, session⟩ req).store

/-! ## Sample data -/

/-- An outside world in which nothing fails at time `now`: the hash of `p` is
`"$2b$10$" ++ p`, and a password verifies against exactly its own hash. -/
def calmEnv (now : Nat) (token : String) : Env where
  now := now
  findErr := false
  hash := fun p => some ("$2b$10$" ++ p)
  compare := fun p h => some (h == "$2b$10$" ++ p)
  saveErr := false
  randomToken := token
  mailErr := false

/-- A fresh client session. -/
def freshSession : Session := ⟨none, []⟩

/-- A registered user with password `p1` and no reset token. -/
def alice : User := ⟨"A", "a@x.com", "$2b$10$p1", none, none⟩

/-- Alice after asking for a reset at time `0`: token `tok`, expiry `3600000`. -/
def aliceWithToken : User := ⟨"A", "a@x.com", "$2b$10$p1", some "tok", some 3600000⟩

/-- Bob after asking for a reset at time `400000` and drawing the same token
`tok`: expiry `4000000`. -/
def bobWithToken : User := ⟨"B", "b@x.com", "$2b$10$q1", some "tok", some 4000000⟩

/-- Alice after resetting her password to `n1`. -/
def aliceAfterReset : User := ⟨"A", "a@x.com", "$2b$10$n1", none, none⟩

/-- An outside world in which only the mail transport fails. -/
def mailDownEnv (now : Nat) (token : String) : Env :=
  { calmEnv now token with mailErr := true }

/-- An outside world in which only `bcrypt.compare` fails: its callback
receives `err`, as for a request that carries no password field. -/
def compareDownEnv (now : Nat) (token : String) : Env :=
  { calmEnv now token with compare := fun _ _ => none }

/-! ## The lookup -/

theorem findOne_eq_none_iff (p : User → Bool) (store : Store) :
    findOne p store = none ↔ ∀ u ∈ store, p u = false := by
  induction store with
  | nil => simp [findOne]
  | cons a as ih =>
    by_cases h : p a = true
    · simp [findOne, h]
    · simp [findOne, h, ih]

theorem findOne_some_spec (p : User → Bool) (store : Store) (i : Nat) (u : User)
    (h : findOne p store = some (i, u)) :
    store[i]? = some u ∧ p u = true ∧ ∀ j, j < i → ∀ v, store[j]? = some v → p v = false := by
  induction store generalizing i with
  | nil => simp [findOne] at h
  | cons a as ih =>
    by_cases hp : p a = true
    · simp only [findOne, hp, if_true, Option.some.injEq, Prod.mk.injEq] at h
      obtain ⟨rfl, rfl⟩ := h
      simp [hp]
    · simp only [findOne, hp, Bool.false_eq_true, if_false, Option.map_eq_some', Prod.mk.injEq,
        Prod.exists] at h
      obtain ⟨k, v, hk, rfl, rfl⟩ := h
      obtain ⟨h1, h2, h3⟩ := ih k hk
      refine ⟨by simpa using h1, h2, ?_⟩
      intro j hj w hw
      cases j with
      | zero =>
        simp only [List.getElem?_cons_zero, Option.some.injEq] at hw
        subst hw
        simpa using hp
      | succ j =>
        simp only [List.getElem?_cons_succ] at hw
        exact h3 j (by omega) w hw

theorem findOne_some_mem (p : User → Bool) (store : Store) (i : Nat) (u : User)
    (h : findOne p store = some (i, u)) : u ∈ store ∧ p u = true := by
  obtain ⟨h1, h2, _⟩ := findOne_some_spec p store i u h
  exact ⟨List.mem_iff_getElem?.mpr ⟨i, h1⟩, h2⟩

theorem findOne_isSome_iff (p : User → Bool) (store : Store) :
    (findOne p store).isSome = true ↔ ∃ u ∈ store, p u = true := by
  rw [← Option.ne_none_iff_isSome, Ne, findOne_eq_none_iff]
  push_neg
  simp

/-- With unique emails the lookup by email returns the only document holding it. -/
theorem findOne_byEmail_of_mem (store : Store) (h : UniqueEmails store) (u : User)
    (hu : u ∈ store) : ∃ i, findOne (byEmail u.email) store = some (i, u) := by
  cases hf : findOne (byEmail u.email) store with
  | none =>
    rw [findOne_eq_none_iff] at hf
    have := hf u hu
    simp [byEmail] at this
  | some r =>
    obtain ⟨i, v⟩ := r
    obtain ⟨hv, hpv⟩ := findOne_some_mem _ _ _ _ hf
    have he : v.email = u.email := by simpa [byEmail] using hpv
    have : v = u := List.inj_on_of_nodup_map h hv hu he
    exact ⟨i, by rw [this]⟩

/-! ## Login -/

/-- C1: when the lookup and the comparison do not error, `POST /login` succeeds
(`session.user` becomes the record found and the response redirects to `/`)
exactly when the store holds a record with that email whose stored hash the
verifier accepts for the password; otherwise `session.user` is left as it was
and the response redirects to `/login`.  The store has unique emails, as the
index of the schema demands. -/
theorem postLogin_succeeds_iff (env : Env) (st : State) (email password : String)
    (huniq : UniqueEmails st.store)
    (hfind : env.findErr = false)
    (hcmp : ∀ u ∈ st.store, u.email = email → env.compare password u.password ≠ none) :
    ((∃ u ∈ st.store, u.email = email ∧ env.compare password u.password = some true) ↔
      ∃ u ∈ st.store, u.email = email ∧
        postLogin env st email password =
          ⟨st.store, { st.session with user := some u }, some (.redirect "/")⟩) ∧
    (¬ (∃ u ∈ st.store, u.email = email ∧ env.compare password u.password = some true) →
      (postLogin env st email password).store = st.store ∧
      (postLogin env st email password).session.user = st.session.user ∧
      (postLogin env st email password).response = some (.redirect "/login")) := by
  have key : ∀ u ∈ st.store, u.email = email →
      findOne (byEmail email) st.store ≠ none ∧
      ∀ r, findOne (byEmail email) st.store = some r → r.2 = u := by
    intro u hu he
    obtain ⟨i, hi⟩ := findOne_byEmail_of_mem st.store huniq u hu
    rw [he] at hi
    exact ⟨by simp [hi], by intro r hr; rw [hi] at hr; cases hr; rfl⟩
  cases hf : findOne (byEmail email) st.store with
  | none =>
    have hno : ∀ u ∈ st.store, u.email ≠ email := by
      intro u hu he
      exact (key u hu he).1 hf
    have hneg : ¬ ∃ u ∈ st.store, u.email = email ∧
        env.compare password u.password = some true := by
      rintro ⟨u, hu, he, -⟩
      exact hno u hu he
    refine ⟨⟨fun h => absurd h hneg, ?_⟩, ?_⟩
    · rintro ⟨u, hu, he, -⟩
      exact absurd he (hno u hu)
    · intro _
      simp [postLogin, hfind, hf, flashRedirect, Session.pushFlash]
  | some r =>
    obtain ⟨i, v⟩ := r
    obtain ⟨hv, hpv⟩ := findOne_some_mem _ _ _ _ hf
    have hve : v.email = email := by simpa [byEmail] using hpv
    have honly : ∀ u ∈ st.store, u.email = email → u = v := by
      intro u hu he
      exact ((key u hu he).2 _ hf).symm
    cases hc : env.compare password v.password with
    | none => exact absurd hc (hcmp v hv hve)
    | some b =>
      cases b with
      | true =>
        refine ⟨⟨fun _ => ⟨v, hv, hve, ?_⟩, fun _ => ⟨v, hv, hve, hc⟩⟩, ?_⟩
        · simp [postLogin, hfind, hf, hc]
        · intro hneg
          exact absurd ⟨v, hv, hve, hc⟩ hneg
      | false =>
        have hneg : ¬ ∃ u ∈ st.store, u.email = email ∧
            env.compare password u.password = some true := by
          rintro ⟨u, hu, he, hcu⟩
          rw [honly u hu he, hc] at hcu
          cases hcu
        refine ⟨⟨fun h => absurd h hneg, ?_⟩, ?_⟩
        · rintro ⟨u, -, -, hres⟩
          have : (postLogin env st email password).response = some (.redirect "/") := by
            rw [hres]
          simp [postLogin, hfind, hf, hc, flashRedirect] at this
        · intro _
          simp [postLogin, hfind, hf, hc, flashRedirect, Session.pushFlash]

/-- Witness for C1: Alice logs in with her password. -/
theorem postLogin_succeeds_iff_witness :
    UniqueEmails [alice] ∧ (calmEnv 0 "t").findErr = false ∧
    (∀ u ∈ [alice], u.email = "a@x.com" →
      (calmEnv 0 "t").compare "p1" u.password ≠ none) ∧
    ∃ u ∈ [alice], u.email = "a@x.com" ∧
      postLogin (calmEnv 0 "t") ⟨[alice], freshSession⟩ "a@x.com" "p1" =
        ⟨[alice], { freshSession with user := some u }, some (.redirect "/")⟩ :=
  ⟨by decide, rfl, by simp [calmEnv],
    (postLogin_succeeds_iff (calmEnv 0 "t") ⟨[alice], freshSession⟩ "a@x.com" "p1"
      (by decide) rfl (by simp [calmEnv])).1.mp
      ⟨alice, List.mem_singleton.mpr rfl, by decide, by decide⟩⟩

/-- C9, as stated, fails when `bcrypt.compare` calls back with an error (as it
does for a request without a password field): from the same session, under the
same outside world and with the same password, the unknown email `z@x.com` is
answered `Email or password is incorrect` while Alice's email, whose password
does not verify, is answered `An error occurred`. -/
theorem postLogin_enumeration_counterexample :
    (∀ u ∈ [alice], u.email ≠ "z@x.com") ∧ (∃ u ∈ [alice], u.email = "a@x.com") ∧
    (∀ u ∈ [alice], (compareDownEnv 0 "t").compare "" u.password ≠ some true) ∧
    postLogin (compareDownEnv 0 "t") ⟨[alice], freshSession⟩ "z@x.com" "" =
      ⟨[alice], ⟨none, ["Email or password is incorrect"]⟩, some (.redirect "/login")⟩ ∧
    postLogin (compareDownEnv 0 "t") ⟨[alice], freshSession⟩ "a@x.com" "" =
      ⟨[alice], ⟨none, ["An error occurred"]⟩, some (.redirect "/login")⟩ ∧
    postLogin (compareDownEnv 0 "t") ⟨[alice], freshSession⟩ "z@x.com" "" ≠
      postLogin (compareDownEnv 0 "t") ⟨[alice], freshSession⟩ "a@x.com" "" := by
  refine ⟨by decide, by decide, by decide, by decide, by decide, by decide⟩

/-- C9, amended: from one session, a login with an email that is not in the
store and a login with an email that is in the store but whose password the
hash comparison, completing without error, reports as not matching (the user
lookups not erroring) give the same response (flash
`Email or password is incorrect`, redirect to `/login`) and the same resulting
session and store. -/
theorem postLogin_no_enumeration (env1 env2 : Env) (st : State)
    (email1 password1 email2 password2 : String)
    (hfind1 : env1.findErr = false) (hfind2 : env2.findErr = false)
    (habsent : ∀ u ∈ st.store, u.email ≠ email1)
    (_hpresent : ∃ u ∈ st.store, u.email = email2)
    (hwrong : ∀ u ∈ st.store, u.email = email2 →
      env2.compare password2 u.password = some false) :
    postLogin env1 st email1 password1 = postLogin env2 st email2 password2 ∧
    postLogin env1 st email1 password1 =
      ⟨st.store, st.session.pushFlash "Email or password is incorrect",
        some (.redirect "/login")⟩ := by
  have h1 : postLogin env1 st email1 password1 =
      ⟨st.store, st.session.pushFlash "Email or password is incorrect",
        some (.redirect "/login")⟩ := by
    have hf : findOne (byEmail email1) st.store = none := by
      rw [findOne_eq_none_iff]
      intro u hu
      simpa [byEmail] using habsent u hu
    simp [postLogin, hfind1, hf, flashRedirect]
  have h2 : postLogin env2 st email2 password2 =
      ⟨st.store, st.session.pushFlash "Email or password is incorrect",
        some (.redirect "/login")⟩ := by
    cases hf : findOne (byEmail email2) st.store with
    | none =>
      simp [postLogin, hfind2, hf, flashRedirect]
    | some r =>
      obtain ⟨i, v⟩ := r
      obtain ⟨hv, hpv⟩ := findOne_some_mem _ _ _ _ hf
      have hve : v.email = email2 := by simpa [byEmail] using hpv
      simp [postLogin, hfind2, hf, hwrong v hv hve, flashRedirect]
  exact ⟨h1.trans h2.symm, h1⟩

/-- Witness for C9 (amended): an unknown email against Alice with a wrong
password. -/
theorem postLogin_no_enumeration_witness :
    (∀ u ∈ [alice], u.email ≠ "z@x.com") ∧ (∃ u ∈ [alice], u.email = "a@x.com") ∧
    (∀ u ∈ [alice], u.email = "a@x.com" →
      (calmEnv 0 "t").compare "bad" u.password = some false) ∧
    postLogin (calmEnv 0 "t") ⟨[alice], freshSession⟩ "z@x.com" "p1" =
      postLogin (calmEnv 0 "t") ⟨[alice], freshSession⟩ "a@x.com" "bad" :=
  ⟨by decide, by decide, by decide,
    (postLogin_no_enumeration (calmEnv 0 "t") (calmEnv 0 "t") ⟨[alice], freshSession⟩
      "z@x.com" "p1" "a@x.com" "bad" rfl rfl (by decide) (by decide) (by decide)).1⟩

/-! ## Signup -/

/-- C5: `POST /signup` with `password` different from `confirmpassword` creates
no record (the store is exactly as before), leaves `session.user` unchanged,
flashes `Passwords do not match` and redirects to `/signup`. -/
theorem postSignup_mismatch (env : Env) (st : State)
    (name email password confirmpassword : String) (h : password ≠ confirmpassword) :
    (postSignup env st name email password confirmpassword).store = st.store ∧
    (postSignup env st name email password confirmpassword).session.user =
      st.session.user ∧
    (postSignup env st name email password confirmpassword).session.flash =
      st.session.flash ++ ["Passwords do not match"] ∧
    (postSignup env st name email password confirmpassword).response =
      some (.redirect "/signup") := by
  simp [postSignup, h, flashRedirect, Session.pushFlash]

/-- Witness for C5: a signup whose confirmation differs. -/
theorem postSignup_mismatch_witness :
    "p1" ≠ "p2" ∧
    (postSignup (calmEnv 0 "t") ⟨[], freshSession⟩ "A" "a@x.com" "p1" "p2").store = [] :=
  ⟨by decide,
    (postSignup_mismatch (calmEnv 0 "t") ⟨[], freshSession⟩ "A" "a@x.com" "p1" "p2"
      (by decide)).1⟩

/-! ## Reset password: which tokens are accepted -/

theorem byToken_eq_true_iff (token : String) (now : Nat) (u : User) :
    byToken token now u = true ↔
      u.resetPasswordToken = some token ∧ ∃ e, u.resetPasswordExpires = some e ∧ now < e := by
  unfold byToken
  cases u.resetPasswordExpires <;> simp

theorem findOne_byToken_ne_none_iff (store : Store) (token : String) (now : Nat) :
    findOne (byToken token now) store ≠ none ↔ HoldsLiveToken store token now := by
  rw [Option.ne_none_iff_isSome, findOne_isSome_iff]
  simp only [byToken_eq_true_iff, HoldsLiveToken]

theorem findOne_byToken_eq_none_iff (store : Store) (token : String) (now : Nat) :
    findOne (byToken token now) store = none ↔ ¬ HoldsLiveToken store token now := by
  rw [← findOne_byToken_ne_none_iff]
  simp

/-- C2, as stated, fails: `POST /reset-password/tok` on the empty store with
`password = "a"` and `confirmPassword = "b"`.  No record holds the token, yet
the handler flashes `Passwords do not match` and redirects to
`/reset-password/tok`; and with Alice holding the live token the same body is
turned away with the same message although the token is live. -/
theorem postResetPassword_mismatch_counterexample :
    (¬ HoldsLiveToken [] "tok" 0 ∧
      postResetPassword (calmEnv 0 "t") ⟨[], freshSession⟩ "tok" "a" "b" =
        ⟨[], ⟨none, ["Passwords do not match"]⟩, some (.redirect "/reset-password/tok")⟩ ∧
      postResetPassword (calmEnv 0 "t") ⟨[], freshSession⟩ "tok" "a" "b" ≠
        rejectedAsInvalid ⟨[], freshSession⟩) ∧
    (HoldsLiveToken [aliceWithToken] "tok" 0 ∧
      postResetPassword (calmEnv 0 "t") ⟨[aliceWithToken], freshSession⟩ "tok" "a" "b" =
        ⟨[aliceWithToken], ⟨none, ["Passwords do not match"]⟩,
          some (.redirect "/reset-password/tok")⟩) := by
  refine ⟨⟨?_, by decide, by decide⟩, ⟨aliceWithToken, by simp, rfl, 3600000, rfl, by decide⟩,
    by decide⟩
  simp [HoldsLiveToken]

/-- C2, amended: when the lookup does not error, `GET /reset-password/:token`,
and `POST /reset-password/:token` with `password` equal to `confirmPassword`,
accept the token exactly when some record holds it with an expiry strictly
after the current time (GET renders the form; POST goes on to hash and save and
flashes one of the messages of that stage); when no such record exists both
flash `Password reset token is invalid or has expired` and redirect to
`/forgot-password`.  Every POST whose `password` differs from `confirmPassword`
is answered `Passwords do not match` with a redirect to
`/reset-password/:token`, store and `session.user` untouched, whatever the
store, the token, the time and the outcome a lookup would have had. -/
theorem resetPassword_accepts_iff (env : Env) (st : State)
    (token password confirmPassword : String) :
    (env.findErr = false →
      (HoldsLiveToken st.store token env.now ↔
        getResetPassword env st token =
          ⟨st.store, { st.session with flash := [] },
            some (.render "reset-password" none (some token) st.session.flash)⟩) ∧
      (¬ HoldsLiveToken st.store token env.now →
        getResetPassword env st token = rejectedAsInvalid st) ∧
      (password = confirmPassword →
        (HoldsLiveToken st.store token env.now ↔
          ∃ m ∈ afterLookupMessages,
            (postResetPassword env st token password confirmPassword).session.flash =
              st.session.flash ++ [m]) ∧
        (¬ HoldsLiveToken st.store token env.now →
          postResetPassword env st token password confirmPassword =
            rejectedAsInvalid st))) ∧
    (password ≠ confirmPassword →
      postResetPassword env st token password confirmPassword =
        ⟨st.store, st.session.pushFlash "Passwords do not match",
          some (.redirect ("/reset-password/" ++ token))⟩) := by
  refine ⟨fun hfind => ?_, fun hne => by simp [postResetPassword, hne, flashRedirect]⟩
  cases hf : findOne (byToken token env.now) st.store with
  | none =>
    have hno : ¬ HoldsLiveToken st.store token env.now :=
      (findOne_byToken_eq_none_iff _ _ _).mp hf
    have hg : getResetPassword env st token = rejectedAsInvalid st := by
      simp [getResetPassword, hfind, hf, rejectedAsInvalid]
    refine ⟨⟨fun h => absurd h hno, ?_⟩, fun _ => hg, fun hsame => ?_⟩
    · intro h
      rw [hg] at h
      have := congrArg Result.response h
      simp [rejectedAsInvalid, flashRedirect] at this
    · subst hsame
      have hp : postResetPassword env st token password password = rejectedAsInvalid st := by
        simp [postResetPassword, hfind, hf, rejectedAsInvalid]
      refine ⟨⟨fun h => absurd h hno, ?_⟩, fun _ => hp⟩
      rintro ⟨m, hm, h⟩
      rw [hp] at h
      simp only [rejectedAsInvalid, flashRedirect, Session.pushFlash,
        List.append_cancel_left_eq, List.cons.injEq, and_true] at h
      subst h
      exact absurd hm (by decide)
  | some r =>
    obtain ⟨i, v⟩ := r
    have hyes : HoldsLiveToken st.store token env.now :=
      (findOne_byToken_ne_none_iff _ _ _).mp (by simp [hf])
    refine ⟨⟨fun _ => ?_, fun _ => hyes⟩, fun h => absurd hyes h, fun hsame => ?_⟩
    · simp [getResetPassword, hfind, hf, Session.takeFlash]
    · subst hsame
      refine ⟨⟨fun _ => ?_, fun _ => hyes⟩, fun h => absurd hyes h⟩
      cases hh : env.hash password with
      | none =>
        exact ⟨"An error occurred during password hashing", by simp [afterLookupMessages], by
          simp [postResetPassword, hfind, hf, hh, flashRedirect, Session.pushFlash]⟩
      | some hash =>
        cases hs : env.saveErr with
        | true =>
          exact ⟨"Error saving new password", by simp [afterLookupMessages], by
            simp [postResetPassword, hfind, hf, hh, hs, flashRedirect, Session.pushFlash]⟩
        | false =>
          exact ⟨"Password reset successfully", by simp [afterLookupMessages], by
            simp [postResetPassword, hfind, hf, hh, hs, Session.pushFlash]⟩

/-- Witness for C2 (amended): Alice holds `tok` until `3600000`; at time `5`
the form is rendered for it, and a POST with `password = "a"` and
`confirmPassword = "b"` is answered `Passwords do not match`. -/
theorem resetPassword_accepts_iff_witness :
    (calmEnv 5 "t").findErr = false ∧ "a" ≠ "b" ∧
    getResetPassword (calmEnv 5 "t") ⟨[aliceWithToken], freshSession⟩ "tok" =
      ⟨[aliceWithToken], { freshSession with flash := [] },
        some (.render "reset-password" none (some "tok") freshSession.flash)⟩ ∧
    postResetPassword (calmEnv 5 "t") ⟨[aliceWithToken], freshSession⟩ "tok" "a" "b" =
      ⟨[aliceWithToken], freshSession.pushFlash "Passwords do not match",
        some (.redirect ("/reset-password/" ++ "tok"))⟩ :=
  ⟨rfl, by decide,
    ((resetPassword_accepts_iff (calmEnv 5 "t") ⟨[aliceWithToken], freshSession⟩
      "tok" "n1" "n1").1 rfl).1.mp
      ⟨aliceWithToken, List.mem_singleton.mpr rfl, rfl, 3600000, rfl, by decide⟩,
    (resetPassword_accepts_iff (calmEnv 5 "t") ⟨[aliceWithToken], freshSession⟩
      "tok" "a" "b").2 (by decide)⟩

/-! ## What a request can do to the collection -/

/-- The four things a request does to the collection: nothing; clear the token
of one record and replace its hash (reset-password); give one record the drawn
token with a one-hour expiry (forgot-password); append a record without token
whose email was not present (signup). -/
theorem handle_store_cases (env : Env) (st : State) (req : Request) :
    (handle env st req).store = st.store ∨
    (∃ i u h token password, req = .postResetPassword token password password ∧
      findOne (byToken token env.now) st.store = some (i, u) ∧
      (handle env st req).store =
        st.store.set i { u with password := h, resetPasswordToken := none,
                                resetPasswordExpires := none }) ∨
    (∃ i u, req = .postForgotPassword u.email ∧
      findOne (byEmail u.email) st.store = some (i, u) ∧
      (handle env st req).store =
        st.store.set i { u with resetPasswordToken := some env.randomToken,
                                resetPasswordExpires := some (env.now + 3600000) }) ∨
    (∃ name email h, (∀ u ∈ st.store, u.email ≠ email) ∧
      (handle env st req).store = st.store ++ [⟨name, email, h, none, none⟩]) := by
  cases req with
  | postLogin email password =>
    left
    simp only [handle, postLogin, flashRedirect]
    split
    · rfl
    · split
      · rfl
      · split <;> rfl
  | getResetPassword token =>
    left
    simp only [handle, getResetPassword, flashRedirect]
    split
    · rfl
    · split <;> rfl
  | postResetPassword token password confirmPassword =>
    by_cases hsame : password = confirmPassword
    · subst hsame
      by_cases hfind : env.findErr = true
      · left; simp [handle, postResetPassword, hfind, flashRedirect]
      · cases hf : findOne (byToken token env.now) st.store with
        | none => left; simp [handle, postResetPassword, hfind, hf, flashRedirect]
        | some r =>
          obtain ⟨i, u⟩ := r
          cases hh : env.hash password with
          | none => left; simp [handle, postResetPassword, hfind, hf, hh, flashRedirect]
          | some h =>
            by_cases hs : env.saveErr = true
            · left; simp [handle, postResetPassword, hfind, hf, hh, hs, flashRedirect]
            · right; left
              exact ⟨i, u, h, token, password, rfl, hf, by
                simp [handle, postResetPassword, hfind, hf, hh, hs]⟩
    · left; simp [handle, postResetPassword, hsame, flashRedirect]
  | postForgotPassword email =>
    by_cases hfind : env.findErr = true
    · left; simp [handle, postForgotPassword, hfind, flashRedirect]
    · cases hf : findOne (byEmail email) st.store with
      | none => left; simp [handle, postForgotPassword, hfind, hf, flashRedirect]
      | some r =>
        obtain ⟨i, u⟩ := r
        have he : u.email = email := by
          simpa [byEmail] using (findOne_some_mem _ _ _ _ hf).2
        subst he
        by_cases hs : env.saveErr = true
        · left; simp [handle, postForgotPassword, hfind, hf, hs, flashRedirect]
        · right; right; left
          refine ⟨i, u, rfl, hf, ?_⟩
          by_cases hm : env.mailErr = true <;>
            simp [handle, postForgotPassword, hfind, hf, hs, hm]
  | postSignup name email password confirmpassword =>
    by_cases hsame : password = confirmpassword
    · subst hsame
      by_cases hfind : env.findErr = true
      · left; simp [handle, postSignup, hfind, flashRedirect]
      · cases hf : findOne (byEmail email) st.store with
        | some r => left; simp [handle, postSignup, hfind, hf, flashRedirect]
        | none =>
          cases hh : env.hash password with
          | none => left; simp [handle, postSignup, hfind, hf, hh, flashRedirect]
          | some h =>
            by_cases hs : env.saveErr = true
            · left; simp [handle, postSignup, hfind, hf, hh, hs, flashRedirect]
            · right; right; right
              refine ⟨name, email, h, ?_, by simp [handle, postSignup, hfind, hf, hh, hs]⟩
              intro u hu
              have := (findOne_eq_none_iff _ _).mp hf u hu
              simpa [byEmail] using this
    · left; simp [handle, postSignup, hsame, flashRedirect]
  | getRoot => left; rfl
  | getLogin => left; rfl
  | getForgotPassword => left; rfl
  | getSignup => left; rfl
  | getLogout => left; rfl
  | getHome => left; rfl
  | getAbout => left; rfl
  | getContact => left; rfl
  | other => left; rfl

/-- Replacing a record by one with the same email keeps the emails unique. -/
theorem uniqueEmails_set (store : Store) (i : Nat) (u v : User)
    (hi : store[i]? = some u) (he : v.email = u.email) (h : UniqueEmails store) :
    UniqueEmails (store.set i v) := by
  unfold UniqueEmails at *
  have : (store.set i v).map User.email = store.map User.email := by
    apply List.ext_getElem?
    intro j
    by_cases hj : i = j
    · subst hj
      simp only [List.getElem?_map, List.getElem?_set_self, hi]
      have hlt : i < store.length := by
        by_contra hge
        rw [List.getElem?_eq_none (by omega)] at hi
        cases hi
      simp [hlt, he]
    · simp [List.getElem?_map, List.getElem?_set_ne hj]
  rw [this]
  exact h

/-- Appending a record whose email is new keeps the emails unique. -/
theorem uniqueEmails_append (store : Store) (v : User)
    (hnew : ∀ u ∈ store, u.email ≠ v.email) (h : UniqueEmails store) :
    UniqueEmails (store ++ [v]) := by
  unfold UniqueEmails at *
  rw [List.map_append, List.nodup_append]
  refine ⟨h, by simp, ?_⟩
  intro a ha hb
  simp only [List.map_cons, List.map_nil, List.mem_singleton] at hb
  obtain ⟨u, hu, rfl⟩ := List.mem_map.mp ha
  exact hnew u hu hb

/-- Every request keeps the emails of the collection unique. -/
theorem handle_uniqueEmails (env : Env) (st : State) (req : Request)
    (h : UniqueEmails st.store) : UniqueEmails (handle env st req).store := by
  rcases handle_store_cases env st req with h0 | ⟨i, u, hh, t, p, -, hf, h1⟩ |
    ⟨i, u, -, hf, h2⟩ | ⟨n, e, hh, hnew, h3⟩
  · rw [h0]; exact h
  · rw [h1]
    exact uniqueEmails_set _ _ _ _ (findOne_some_spec _ _ _ _ hf).1 rfl h
  · rw [h2]
    exact uniqueEmails_set _ _ _ _ (findOne_some_spec _ _ _ _ hf).1 rfl h
  · rw [h3]
    exact uniqueEmails_append _ _ hnew h

/-! ## Signup keeps emails unique -/

/-- C6, as stated, fails on submissions whose confirmation differs: with an
absent email (`a@x.com` on the empty store) no record is added, and with an
email already present the message is `Passwords do not match`, not
`Email already exists`. -/
theorem postSignup_counterexample :
    ((∀ u ∈ ([] : Store), u.email ≠ "a@x.com") ∧
      (postSignup (calmEnv 0 "t") ⟨[], freshSession⟩ "A" "a@x.com" "p1" "p2").store = []) ∧
    ((∃ u ∈ [alice], u.email = "a@x.com") ∧
      postSignup (calmEnv 0 "t") ⟨[alice], freshSession⟩ "A" "a@x.com" "p1" "p2" =
        ⟨[alice], ⟨none, ["Passwords do not match"]⟩, some (.redirect "/signup")⟩ ∧
      postSignup (calmEnv 0 "t") ⟨[alice], freshSession⟩ "A" "a@x.com" "p1" "p2" ≠
        flashRedirect ⟨[alice], freshSession⟩ "Email already exists" "/signup") := by
  refine ⟨⟨by simp, by decide⟩, by decide, by decide, by decide⟩

theorem runSignups_uniqueEmails (reqs : List (Env × String × String × String × String))
    (st : State) (h : UniqueEmails st.store) : UniqueEmails (runSignups st reqs).store := by
  induction reqs generalizing st with
  | nil => exact h
  | cons a rest ih =>
    obtain ⟨env, name, email, password, confirmpassword⟩ := a
    simp only [runSignups]
    apply ih
    exact handle_uniqueEmails env st (.postSignup name email password confirmpassword) h

/-- C6, amended: on a store in which no two records share an email, a signup
whose `password` equals `confirmpassword` and whose lookup does not error
leaves the store unchanged and flashes `Email already exists` when the email is
present, and adds exactly one record (name, email, hash, no token) when the
email is absent and hashing and saving succeed; and after any sequence of
signups, whatever their fields and outcomes, no two records share an email. -/
theorem postSignup_keeps_emails_unique (st : State) (huniq : UniqueEmails st.store) :
    (∀ (env : Env) (name email password : String), env.findErr = false →
      (∃ u ∈ st.store, u.email = email) →
      postSignup env st name email password password =
        ⟨st.store, st.session.pushFlash "Email already exists",
          some (.redirect "/signup")⟩) ∧
    (∀ (env : Env) (name email password h : String), env.findErr = false →
      (∀ u ∈ st.store, u.email ≠ email) → env.hash password = some h →
      env.saveErr = false →
      (postSignup env st name email password password).store =
        st.store ++ [⟨name, email, h, none, none⟩]) ∧
    (∀ reqs : List (Env × String × String × String × String),
      UniqueEmails (runSignups st reqs).store) := by
  refine ⟨?_, ?_, fun reqs => runSignups_uniqueEmails reqs st huniq⟩
  · rintro env name email password hfind ⟨u, hu, he⟩
    cases hf : findOne (byEmail email) st.store with
    | none =>
      have := (findOne_eq_none_iff _ _).mp hf u hu
      simp [byEmail, he] at this
    | some r => simp [postSignup, hfind, hf, flashRedirect]
  · intro env name email password h hfind habsent hh hs
    have hf : findOne (byEmail email) st.store = none := by
      rw [findOne_eq_none_iff]
      intro u hu
      simpa [byEmail] using habsent u hu
    simp [postSignup, hfind, hf, hh, hs]

/-- Witness for C6 (amended): signing up `a@x.com` twice from the empty store
leaves exactly one record. -/
theorem postSignup_keeps_emails_unique_witness :
    UniqueEmails ([] : Store) ∧
    (runSignups ⟨[], freshSession⟩
      [(calmEnv 0 "t", "A", "a@x.com", "p1", "p1"),
       (calmEnv 1 "t", "A", "a@x.com", "p1", "p1")]).store = [alice] ∧
    UniqueEmails (runSignups ⟨[], freshSession⟩
      [(calmEnv 0 "t", "A", "a@x.com", "p1", "p1"),
       (calmEnv 1 "t", "A", "a@x.com", "p1", "p1")]).store :=
  ⟨by decide, by decide,
    (postSignup_keeps_emails_unique ⟨[], freshSession⟩ (by decide)).2.2 _⟩

/-! ## Token and expiry go together -/

/-- C8: in every record of every store reachable from the empty store, the
fields `resetPasswordToken` and `resetPasswordExpires` are both present or both
absent. -/
theorem reachable_token_fields_paired (store : Store) (h : Reachable store) :
    ∀ u ∈ store,
      (u.resetPasswordToken.isSome = true ∧ u.resetPasswordExpires.isSome = true) ∨
      (u.resetPasswordToken = none ∧ u.resetPasswordExpires = none) := by
  induction h with
  | empty => simp
  | step env store session req _ ih =>
    intro u hu
    rcases handle_store_cases env ⟨store, session⟩ req with h0 | ⟨i, v, hh, t, p, -, -, h1⟩ |
      ⟨i, v, -, -, h2⟩ | ⟨n, e, hh, -, h3⟩
    · rw [h0] at hu; exact ih u hu
    · rw [h1] at hu
      rcases List.mem_or_eq_of_mem_set hu with hm | rfl
      · exact ih u hm
      · right; exact ⟨rfl, rfl⟩
    · rw [h2] at hu
      rcases List.mem_or_eq_of_mem_set hu with hm | rfl
      · exact ih u hm
      · left; exact ⟨rfl, rfl⟩
    · rw [h3] at hu
      rcases List.mem_append.mp hu with hm | hm
      · exact ih u hm
      · rw [List.mem_singleton] at hm
        subst hm
        right; exact ⟨rfl, rfl⟩

/-- Witness for C8: Alice signs up and asks for a reset; the store holding her
record with token and expiry is reachable. -/
theorem reachable_token_fields_paired_witness :
    Reachable [aliceWithToken] ∧
    ∀ u ∈ [aliceWithToken],
      (u.resetPasswordToken.isSome = true ∧ u.resetPasswordExpires.isSome = true) ∨
      (u.resetPasswordToken = none ∧ u.resetPasswordExpires = none) :=
  have hr : Reachable [aliceWithToken] :=
    (by decide : (handle (calmEnv 0 "tok") ⟨[alice], freshSession⟩
        (.postForgotPassword "a@x.com")).store = [aliceWithToken]) ▸
      Reachable.step (calmEnv 0 "tok") [alice] freshSession (.postForgotPassword "a@x.com")
        ((by decide : (handle (calmEnv 0 "t") ⟨[], freshSession⟩
            (.postSignup "A" "a@x.com" "p1" "p1")).store = [alice]) ▸
          Reachable.step (calmEnv 0 "t") [] freshSession
            (.postSignup "A" "a@x.com" "p1" "p1") Reachable.empty)
  ⟨hr, reachable_token_fields_paired [aliceWithToken] hr⟩

/-! ## Reset tokens are used once -/

theorem getResetPassword_of_not_live (env : Env) (st : State) (token : String)
    (hfind : env.findErr = false) (h : ¬ HoldsLiveToken st.store token env.now) :
    getResetPassword env st token = rejectedAsInvalid st := by
  have hf := (findOne_byToken_eq_none_iff _ _ _).mpr h
  simp [getResetPassword, hfind, hf, rejectedAsInvalid]

theorem postResetPassword_of_not_live (env : Env) (st : State) (token password : String)
    (hfind : env.findErr = false) (h : ¬ HoldsLiveToken st.store token env.now) :
    postResetPassword env st token password password = rejectedAsInvalid st := by
  have hf := (findOne_byToken_eq_none_iff _ _ _).mpr h
  simp [postResetPassword, hfind, hf, rejectedAsInvalid]

theorem getResetPassword_of_live (env : Env) (st : State) (token : String)
    (hfind : env.findErr = false) (h : HoldsLiveToken st.store token env.now) :
    getResetPassword env st token =
      ⟨st.store, { st.session with flash := [] },
        some (.render "reset-password" none (some token) st.session.flash)⟩ := by
  have hf := (findOne_byToken_ne_none_iff _ _ _).mpr h
  cases hr : findOne (byToken token env.now) st.store with
  | none => exact absurd hr hf
  | some r => simp [getResetPassword, hfind, hr, Session.takeFlash]

theorem postResetPassword_of_live (env : Env) (st : State) (token password : String)
    (hfind : env.findErr = false) (h : HoldsLiveToken st.store token env.now) :
    ∃ m ∈ afterLookupMessages,
      (postResetPassword env st token password password).session.flash =
        st.session.flash ++ [m] := by
  have hf := (findOne_byToken_ne_none_iff _ _ _).mpr h
  cases hr : findOne (byToken token env.now) st.store with
  | none => exact absurd hr hf
  | some r =>
    obtain ⟨i, v⟩ := r
    cases hh : env.hash password with
    | none =>
      exact ⟨"An error occurred during password hashing", by simp [afterLookupMessages], by
        simp [postResetPassword, hfind, hr, hh, flashRedirect, Session.pushFlash]⟩
    | some hash =>
      cases hs : env.saveErr with
      | true =>
        exact ⟨"Error saving new password", by simp [afterLookupMessages], by
          simp [postResetPassword, hfind, hr, hh, hs, flashRedirect, Session.pushFlash]⟩
      | false =>
        exact ⟨"Password reset successfully", by simp [afterLookupMessages], by
          simp [postResetPassword, hfind, hr, hh, hs, Session.pushFlash]⟩

theorem not_live_of_noHolder (store : Store) (token : String) (now : Nat)
    (h : NoHolder store token) : ¬ HoldsLiveToken store token now := by
  rintro ⟨u, hu, ht, -⟩
  exact h u hu ht

/-- A request that does not draw `token` cannot make a record hold it. -/
theorem handle_noHolder (env : Env) (st : State) (req : Request) (token : String)
    (hdraw : ∀ email, req = .postForgotPassword email → env.randomToken ≠ token)
    (h : NoHolder st.store token) : NoHolder (handle env st req).store token := by
  intro u hu
  rcases handle_store_cases env st req with h0 | ⟨i, v, hh, t, p, -, -, h1⟩ |
    ⟨i, v, hreq, -, h2⟩ | ⟨n, e, hh, -, h3⟩
  · rw [h0] at hu; exact h u hu
  · rw [h1] at hu
    rcases List.mem_or_eq_of_mem_set hu with hm | rfl
    · exact h u hm
    · simp
  · rw [h2] at hu
    rcases List.mem_or_eq_of_mem_set hu with hm | rfl
    · exact h u hm
    · have := hdraw v.email hreq
      simpa using this
  · rw [h3] at hu
    rcases List.mem_append.mp hu with hm | hm
    · exact h u hm
    · rw [List.mem_singleton] at hm
      subst hm
      simp

theorem followsWithout_noHolder (token : String) (store store2 : Store)
    (hf : FollowsWithout token store store2) (h : NoHolder store token) :
    NoHolder store2 token := by
  induction hf with
  | refl => exact h
  | step env store3 session req _ hdraw ih =>
    exact handle_noHolder env ⟨store3, session⟩ req token hdraw ih

/-- Clearing the token of the only record that holds it leaves no holder. -/
theorem noHolder_set_of_atMostOne (store : Store) (token : String) (i : Nat) (u u1 : User)
    (honce : AtMostOneHolder store token) (hi : store[i]? = some u)
    (hu : u.resetPasswordToken = some token) (hu1 : u1.resetPasswordToken = none) :
    NoHolder (store.set i u1) token := by
  intro v hv hvt
  obtain ⟨j, hj⟩ := List.mem_iff_getElem?.mp hv
  by_cases hij : i = j
  · subst hij
    have hlt : i < store.length := by
      by_contra hge
      rw [List.getElem?_eq_none (by omega)] at hi
      cases hi
    rw [List.getElem?_set_self hlt] at hj
    cases hj
    rw [hu1] at hvt
    cases hvt
  · rw [List.getElem?_set_ne hij] at hj
    exact hij (honce i j u v hi hj hu hvt)

/-- C3, as stated, fails twice.  First, with two records holding `tok` (Alice
until `3600000`, Bob until `4000000`), the reset at time `1000000` consumes
Alice's copy and a `GET /reset-password/tok` one millisecond later is still
accepted through Bob's.  Second, with Alice the only holder, a later
`POST /reset-password/tok` whose confirmation differs is answered
`Passwords do not match` with a redirect back to the form, not as invalid or
expired. -/
theorem reset_token_single_use_counterexample :
    (postResetPassword (calmEnv 1000000 "t") ⟨[aliceWithToken, bobWithToken], freshSession⟩
        "tok" "n1" "n1" =
        ⟨[aliceAfterReset, bobWithToken], ⟨none, ["Password reset successfully"]⟩,
          some (.redirect "/login")⟩ ∧
      getResetPassword (calmEnv 1000001 "t") ⟨[aliceAfterReset, bobWithToken], freshSession⟩ "tok" =
        ⟨[aliceAfterReset, bobWithToken], freshSession,
          some (.render "reset-password" none (some "tok") [])⟩ ∧
      getResetPassword (calmEnv 1000001 "t") ⟨[aliceAfterReset, bobWithToken], freshSession⟩ "tok" ≠
        rejectedAsInvalid ⟨[aliceAfterReset, bobWithToken], freshSession⟩) ∧
    (postResetPassword (calmEnv 1000000 "t") ⟨[aliceWithToken], freshSession⟩ "tok" "n1" "n1" =
        ⟨[aliceAfterReset], ⟨none, ["Password reset successfully"]⟩,
          some (.redirect "/login")⟩ ∧
      postResetPassword (calmEnv 1000001 "t") ⟨[aliceAfterReset], freshSession⟩ "tok" "a" "b" =
        ⟨[aliceAfterReset], ⟨none, ["Passwords do not match"]⟩,
          some (.redirect "/reset-password/tok")⟩ ∧
      postResetPassword (calmEnv 1000001 "t") ⟨[aliceAfterReset], freshSession⟩ "tok" "a" "b" ≠
        rejectedAsInvalid ⟨[aliceAfterReset], freshSession⟩) := by
  refine ⟨⟨by decide, by decide, by decide⟩, by decide, by decide, by decide⟩

/-- C3, amended: on a store in which at most one record holds the token, once
`POST /reset-password/:token` has accepted the token and saved the new
password, the affected record has neither `resetPasswordToken` nor
`resetPasswordExpires`, and from then on, as long as no forgot-password request
draws the same token again, every `GET /reset-password/:token`, and every
`POST /reset-password/:token` whose `password` equals `confirmPassword`, at any
time, is rejected as invalid or expired (its lookup not erroring). -/
theorem reset_token_single_use (env : Env) (st : State)
    (token password confirmPassword : String)
    (honce : AtMostOneHolder st.store token)
    (hsame : password = confirmPassword) (hfind : env.findErr = false)
    (hlive : HoldsLiveToken st.store token env.now)
    (hhash : env.hash password ≠ none) (hsave : env.saveErr = false) :
    (∃ i u h, findOne (byToken token env.now) st.store = some (i, u) ∧
      env.hash password = some h ∧
      (postResetPassword env st token password confirmPassword).store =
        st.store.set i { u with password := h, resetPasswordToken := none,
                                resetPasswordExpires := none } ∧
      (postResetPassword env st token password confirmPassword).store[i]? =
        some { u with password := h, resetPasswordToken := none,
                      resetPasswordExpires := none }) ∧
    ∀ store2,
      FollowsWithout token (postResetPassword env st token password confirmPassword).store
        store2 →
      ∀ (env2 : Env) (session2 : Session) (password2 : String), env2.findErr = false →
        getResetPassword env2 ⟨store2, session2⟩ token =
          rejectedAsInvalid ⟨store2, session2⟩ ∧
        postResetPassword env2 ⟨store2, session2⟩ token password2 password2 =
          rejectedAsInvalid ⟨store2, session2⟩ := by
  subst hsame
  have hf := (findOne_byToken_ne_none_iff _ _ _).mpr hlive
  cases hr : findOne (byToken token env.now) st.store with
  | none => exact absurd hr hf
  | some r =>
    obtain ⟨i, u⟩ := r
    cases hh : env.hash password with
    | none => exact absurd hh hhash
    | some h =>
      obtain ⟨hi, hp, -⟩ := findOne_some_spec _ _ _ _ hr
      have hut : u.resetPasswordToken = some token :=
        ((byToken_eq_true_iff _ _ _).mp hp).1
      have hlt : i < st.store.length := by
        by_contra hge
        rw [List.getElem?_eq_none (by omega)] at hi
        cases hi
      have hstore : (postResetPassword env st token password password).store =
          st.store.set i { u with password := h, resetPasswordToken := none,
                                  resetPasswordExpires := none } := by
        simp [postResetPassword, hfind, hr, hh, hsave]
      refine ⟨⟨i, u, h, rfl, rfl, hstore, ?_⟩, ?_⟩
      · rw [hstore, List.getElem?_set_self hlt]
      · intro store2 hfol env2 session2 password2 hfind2
        have hno : NoHolder store2 token := by
          apply followsWithout_noHolder token _ _ hfol
          rw [hstore]
          exact noHolder_set_of_atMostOne _ _ _ _ _ honce hi hut rfl
        exact ⟨getResetPassword_of_not_live env2 ⟨store2, session2⟩ token hfind2
            (not_live_of_noHolder _ _ _ hno),
          postResetPassword_of_not_live env2 ⟨store2, session2⟩ token password2 hfind2
            (not_live_of_noHolder _ _ _ hno)⟩

/-- Witness for C3 (amended): Alice, the only holder of `tok`, resets her
password at time `0`; a later `GET /reset-password/tok` is rejected. -/
theorem reset_token_single_use_witness :
    AtMostOneHolder [aliceWithToken] "tok" ∧ "n1" = "n1" ∧
    (calmEnv 0 "t").findErr = false ∧ HoldsLiveToken [aliceWithToken] "tok" 0 ∧
    (calmEnv 0 "t").hash "n1" ≠ none ∧ (calmEnv 0 "t").saveErr = false ∧
    getResetPassword (calmEnv 5 "t")
        ⟨(postResetPassword (calmEnv 0 "t") ⟨[aliceWithToken], freshSession⟩
            "tok" "n1" "n1").store, freshSession⟩ "tok" =
      rejectedAsInvalid
        ⟨(postResetPassword (calmEnv 0 "t") ⟨[aliceWithToken], freshSession⟩
            "tok" "n1" "n1").store, freshSession⟩ :=
  have honce : AtMostOneHolder [aliceWithToken] "tok" := by
    intro j k v w hj hk _ _
    have h0 : ∀ (n : Nat) (x : User), [aliceWithToken][n]? = some x → n = 0 := by
      intro n x hn
      cases n with
      | zero => rfl
      | succ n => simp at hn
    rw [h0 j v hj, h0 k w hk]
  have hlive : HoldsLiveToken [aliceWithToken] "tok" 0 :=
    ⟨aliceWithToken, List.mem_singleton.mpr rfl, rfl, 3600000, rfl, by decide⟩
  ⟨honce, rfl, rfl, hlive, by simp [calmEnv], rfl,
    ((reset_token_single_use (calmEnv 0 "t") ⟨[aliceWithToken], freshSession⟩
      "tok" "n1" "n1" honce rfl rfl hlive (by simp [calmEnv]) rfl).2 _
      FollowsWithout.refl (calmEnv 5 "t") freshSession "x" rfl).1⟩

/-! ## After a reset the new password logs in and the old one does not -/

/-- C4: let the token lookup resolve to a user record (the token is valid and
unexpired for it) whose stored hash verifies an old password, and let a new
password different from the old one be submitted with a matching confirmation.
When `POST /reset-password/:token` succeeds, `POST /login` with that user's
email and the new password succeeds, and with the old password it fails, for a
verifier in which `compare(p, hash(q))` holds exactly when `p = q`. -/
theorem reset_then_login (env envNew envOld : Env) (st : State)
    (sessNew sessOld : Session) (i : Nat) (u : User)
    (token oldPassword newPassword confirmPassword : String)
    (huniq : UniqueEmails st.store)
    (_hold : env.compare oldPassword u.password = some true)
    (hne : newPassword ≠ oldPassword) (hsame : newPassword = confirmPassword)
    (hfound : findOne (byToken token env.now) st.store = some (i, u))
    (hfind : env.findErr = false) (hhash : env.hash newPassword ≠ none)
    (hsave : env.saveErr = false)
    (hverNew : IdealVerifier env envNew) (hverOld : IdealVerifier env envOld)
    (hfindNew : envNew.findErr = false) (hfindOld : envOld.findErr = false) :
    ∃ h, env.hash newPassword = some h ∧
      (postResetPassword env st token newPassword confirmPassword).response =
        some (.redirect "/login") ∧
      postLogin envNew
          ⟨(postResetPassword env st token newPassword confirmPassword).store, sessNew⟩
          u.email newPassword =
        ⟨(postResetPassword env st token newPassword confirmPassword).store,
          { sessNew with user := some { u with password := h, resetPasswordToken := none,
                                               resetPasswordExpires := none } },
          some (.redirect "/")⟩ ∧
      postLogin envOld
          ⟨(postResetPassword env st token newPassword confirmPassword).store, sessOld⟩
          u.email oldPassword =
        ⟨(postResetPassword env st token newPassword confirmPassword).store,
          sessOld.pushFlash "Email or password is incorrect",
          some (.redirect "/login")⟩ := by
  subst hsame
  cases hh : env.hash newPassword with
  | none => exact absurd hh hhash
  | some h =>
    obtain ⟨hi, -, -⟩ := findOne_some_spec _ _ _ _ hfound
    have hlt : i < st.store.length := by
      by_contra hge
      rw [List.getElem?_eq_none (by omega)] at hi
      cases hi
    have hstore : (postResetPassword env st token newPassword newPassword).store =
        st.store.set i { u with password := h, resetPasswordToken := none,
                                resetPasswordExpires := none } := by
      simp [postResetPassword, hfind, hfound, hh, hsave]
    have hresp : (postResetPassword env st token newPassword newPassword).response =
        some (.redirect "/login") := by
      simp [postResetPassword, hfind, hfound, hh, hsave]
    have huniq1 : UniqueEmails (postResetPassword env st token newPassword newPassword).store := by
      rw [hstore]
      exact uniqueEmails_set _ _ _ _ hi rfl huniq
    have hmem : ({ u with password := h, resetPasswordToken := none,
                          resetPasswordExpires := none } : User) ∈
        (postResetPassword env st token newPassword newPassword).store := by
      rw [hstore]
      exact List.mem_iff_getElem?.mpr ⟨i, List.getElem?_set_self hlt⟩
    obtain ⟨k, hk⟩ := findOne_byEmail_of_mem _ huniq1 _ hmem
    have hk1 : findOne (byEmail u.email)
        (postResetPassword env st token newPassword newPassword).store =
        some (k, { u with password := h, resetPasswordToken := none,
                          resetPasswordExpires := none }) := hk
    refine ⟨h, rfl, hresp, ?_, ?_⟩
    · have hc := hverNew newPassword newPassword h hh
      simp only [decide_True] at hc
      simp [postLogin, hfindNew, hk1, hc]
    · have hc := hverOld oldPassword newPassword h hh
      have hd : decide (oldPassword = newPassword) = false := by
        simpa using fun e : oldPassword = newPassword => hne e.symm
      rw [hd] at hc
      simp [postLogin, hfindOld, hk1, hc, flashRedirect]

theorem idealVerifier_calmEnv (a b : Nat) (s t : String) :
    IdealVerifier (calmEnv a s) (calmEnv b t) := by
  intro p q hq h
  simp only [calmEnv, Option.some.injEq] at h
  subst h
  simp only [calmEnv, Option.some.injEq]
  by_cases hpq : p = q
  · subst hpq; simp
  · have : ¬ ("$2b$10$" ++ q = "$2b$10$" ++ p) := by
      intro e
      apply hpq
      have := congrArg String.data e
      simp only [String.data_append, List.append_cancel_left_eq] at this
      exact (String.ext this).symm
    simp [hpq, this]

/-- Witness for C4: Alice (password `p1`, token `tok`) resets to `n1`; `n1`
then logs her in. -/
theorem reset_then_login_witness :
    UniqueEmails [aliceWithToken] ∧
    (calmEnv 0 "t").compare "p1" aliceWithToken.password = some true ∧
    "n1" ≠ "p1" ∧
    findOne (byToken "tok" (calmEnv 0 "t").now) [aliceWithToken] = some (0, aliceWithToken) ∧
    IdealVerifier (calmEnv 0 "t") (calmEnv 1 "t") ∧
    ∃ h, (calmEnv 0 "t").hash "n1" = some h ∧
      (postResetPassword (calmEnv 0 "t") ⟨[aliceWithToken], freshSession⟩
        "tok" "n1" "n1").response = some (.redirect "/login") ∧
      postLogin (calmEnv 1 "t")
          ⟨(postResetPassword (calmEnv 0 "t") ⟨[aliceWithToken], freshSession⟩
            "tok" "n1" "n1").store, freshSession⟩ aliceWithToken.email "n1" =
        ⟨(postResetPassword (calmEnv 0 "t") ⟨[aliceWithToken], freshSession⟩
            "tok" "n1" "n1").store,
          { freshSession with
            user := some { aliceWithToken with password := h, resetPasswordToken := none,
                                               resetPasswordExpires := none } },
          some (.redirect "/")⟩ ∧
      postLogin (calmEnv 2 "t")
          ⟨(postResetPassword (calmEnv 0 "t") ⟨[aliceWithToken], freshSession⟩
            "tok" "n1" "n1").store, freshSession⟩ aliceWithToken.email "p1" =
        ⟨(postResetPassword (calmEnv 0 "t") ⟨[aliceWithToken], freshSession⟩
            "tok" "n1" "n1").store,
          freshSession.pushFlash "Email or password is incorrect",
          some (.redirect "/login")⟩ :=
  ⟨by decide, by decide, by decide, by decide, idealVerifier_calmEnv 0 1 "t" "t",
    reset_then_login (calmEnv 0 "t") (calmEnv 1 "t") (calmEnv 2 "t")
      ⟨[aliceWithToken], freshSession⟩ freshSession freshSession 0 aliceWithToken
      "tok" "p1" "n1" "n1" (by decide) (by decide) (by decide) rfl (by decide) rfl
      (by simp [calmEnv]) rfl (idealVerifier_calmEnv 0 1 "t" "t")
      (idealVerifier_calmEnv 0 2 "t" "t") rfl rfl⟩

/-! ## Forgot password: the one-hour window -/

/-- Every store reached with a clock that never runs backwards holds no expiry
later than one hour after the current time. -/
theorem reachableBy_expiriesWithinHour (t : Nat) (store : Store)
    (h : ReachableBy t store) : ExpiriesWithinHour store t := by
  induction h with
  | empty t => intro u hu; cases hu
  | step t env store session req _ hle ih =>
    intro u hu e he
    rcases handle_store_cases env ⟨store, session⟩ req with h0 | ⟨i, v, hh, tk, p, -, -, h1⟩ |
      ⟨i, v, -, -, h2⟩ | ⟨n, em, hh, -, h3⟩
    · rw [h0] at hu
      have := ih u hu e he
      omega
    · rw [h1] at hu
      rcases List.mem_or_eq_of_mem_set hu with hm | rfl
      · have := ih u hm e he
        omega
      · cases he
    · rw [h2] at hu
      rcases List.mem_or_eq_of_mem_set hu with hm | rfl
      · have := ih u hm e he
        omega
      · simp only [Option.some.injEq] at he
        omega
    · rw [h3] at hu
      rcases List.mem_append.mp hu with hm | hm
      · have := ih u hm e he
        omega
      · rw [List.mem_singleton] at hm
        subst hm
        cases he

/-- After the drawn token is written to record `i` with expiry `t0 + 3600000`
in a store whose expiries all lie within the hour after `t0`, the token is live
exactly before that expiry. -/
theorem holdsLiveToken_set_iff (store : Store) (i : Nat) (u : User) (token : String)
    (t0 t : Nat) (hi : store[i]? = some u) (hwithin : ExpiriesWithinHour store t0) :
    HoldsLiveToken
        (store.set i { u with resetPasswordToken := some token,
                              resetPasswordExpires := some (t0 + 3600000) }) token t ↔
      t < t0 + 3600000 := by
  have hlt : i < store.length := by
    by_contra hge
    rw [List.getElem?_eq_none (by omega)] at hi
    cases hi
  constructor
  · rintro ⟨v, hv, -, e, hve, hte⟩
    rcases List.mem_or_eq_of_mem_set hv with hm | rfl
    · have := hwithin v hm e hve
      omega
    · simp only [Option.some.injEq] at hve
      omega
  · intro h
    exact ⟨_, List.mem_iff_getElem?.mpr ⟨i, List.getElem?_set_self hlt⟩, rfl,
      t0 + 3600000, rfl, h⟩

/-- C10: on a store that holds no expiry later than one hour after `t0` (every
store the server reaches with a clock that never runs backwards), and with the
lookup not erroring, `POST /forgot-password` at time `t0` for an email in the
store, its save succeeding, stores the drawn token on the record found with
`resetPasswordExpires = t0 + 3600000`; reset-password (GET, and POST with
matching passwords, their lookup not erroring) then accepts that token at
every time `t < t0 + 3600000` and rejects it as invalid or expired at every
time `t ≥ t0 + 3600000`.  For an email not in the store nothing is stored and
`No user with that email address found` is flashed. -/
theorem forgotPassword_one_hour (env : Env) (st : State) (email : String)
    (hfind : env.findErr = false) (hwithin : ExpiriesWithinHour st.store env.now) :
    (∀ (i : Nat) (u : User), findOne (byEmail email) st.store = some (i, u) →
      env.saveErr = false →
      (postForgotPassword env st email).store =
          st.store.set i { u with resetPasswordToken := some env.randomToken,
                                  resetPasswordExpires := some (env.now + 3600000) } ∧
      (postForgotPassword env st email).store[i]? =
          some { u with resetPasswordToken := some env.randomToken,
                        resetPasswordExpires := some (env.now + 3600000) } ∧
      ∀ (env2 : Env) (session2 : Session) (password2 : String), env2.findErr = false →
        (env2.now < env.now + 3600000 →
          getResetPassword env2 ⟨(postForgotPassword env st email).store, session2⟩
              env.randomToken =
            ⟨(postForgotPassword env st email).store, { session2 with flash := [] },
              some (.render "reset-password" none (some env.randomToken)
                session2.flash)⟩ ∧
          ∃ m ∈ afterLookupMessages,
            (postResetPassword env2 ⟨(postForgotPassword env st email).store, session2⟩
              env.randomToken password2 password2).session.flash =
              session2.flash ++ [m]) ∧
        (env.now + 3600000 ≤ env2.now →
          getResetPassword env2 ⟨(postForgotPassword env st email).store, session2⟩
              env.randomToken =
            rejectedAsInvalid ⟨(postForgotPassword env st email).store, session2⟩ ∧
          postResetPassword env2 ⟨(postForgotPassword env st email).store, session2⟩
              env.randomToken password2 password2 =
            rejectedAsInvalid ⟨(postForgotPassword env st email).store, session2⟩)) ∧
    ((∀ u ∈ st.store, u.email ≠ email) →
      postForgotPassword env st email =
        ⟨st.store, st.session.pushFlash "No user with that email address found",
          some (.redirect "/forgot-password")⟩) := by
  constructor
  · intro i u hf hsave
    obtain ⟨hi, -, -⟩ := findOne_some_spec _ _ _ _ hf
    have hlt : i < st.store.length := by
      by_contra hge
      rw [List.getElem?_eq_none (by omega)] at hi
      cases hi
    have hstore : (postForgotPassword env st email).store =
        st.store.set i { u with resetPasswordToken := some env.randomToken,
                                resetPasswordExpires := some (env.now + 3600000) } := by
      by_cases hm : env.mailErr = true <;>
        simp [postForgotPassword, hfind, hf, hsave, hm]
    refine ⟨hstore, by rw [hstore, List.getElem?_set_self hlt], ?_⟩
    intro env2 session2 password2 hfind2
    have hiff := holdsLiveToken_set_iff st.store i u env.randomToken env.now env2.now hi hwithin
    rw [← hstore] at hiff
    constructor
    · intro hbefore
      have hlive := hiff.mpr hbefore
      exact ⟨getResetPassword_of_live env2 ⟨_, session2⟩ _ hfind2 hlive,
        postResetPassword_of_live env2 ⟨_, session2⟩ _ password2 hfind2 hlive⟩
    · intro hafter
      have hdead : ¬ HoldsLiveToken (postForgotPassword env st email).store
          env.randomToken env2.now := by
        intro hl
        have := hiff.mp hl
        omega
      exact ⟨getResetPassword_of_not_live env2 ⟨_, session2⟩ _ hfind2 hdead,
        postResetPassword_of_not_live env2 ⟨_, session2⟩ _ password2 hfind2 hdead⟩
  · intro habsent
    have hf : findOne (byEmail email) st.store = none := by
      rw [findOne_eq_none_iff]
      intro u hu
      simpa [byEmail] using habsent u hu
    simp [postForgotPassword, hfind, hf, flashRedirect]

/-- Witness for C10: Alice asks for a reset at time `0` and draws `tok`; one
millisecond before the hour the form is rendered, at the hour the token is
rejected. -/
theorem forgotPassword_one_hour_witness :
    (calmEnv 0 "tok").findErr = false ∧ ExpiriesWithinHour [alice] (calmEnv 0 "tok").now ∧
    (postForgotPassword (calmEnv 0 "tok") ⟨[alice], freshSession⟩ "a@x.com").store =
      [aliceWithToken] ∧
    getResetPassword (calmEnv 3599999 "t") ⟨[aliceWithToken], freshSession⟩ "tok" =
      ⟨[aliceWithToken], freshSession,
        some (.render "reset-password" none (some "tok") [])⟩ ∧
    getResetPassword (calmEnv 3600000 "t") ⟨[aliceWithToken], freshSession⟩ "tok" =
      rejectedAsInvalid ⟨[aliceWithToken], freshSession⟩ :=
  have hw : ExpiriesWithinHour [alice] (calmEnv 0 "tok").now := by
    intro u hu e he
    rw [List.mem_singleton] at hu
    subst hu
    cases he
  have h := (forgotPassword_one_hour (calmEnv 0 "tok") ⟨[alice], freshSession⟩ "a@x.com"
    rfl hw).1 0 alice (by decide) rfl
  ⟨rfl, hw, by decide,
    ((h.2.2 (calmEnv 3599999 "t") freshSession "n1" rfl).1 (by decide)).1,
    ((h.2.2 (calmEnv 3600000 "t") freshSession "n1" rfl).2 (by decide)).1⟩

/-- Every reachable store has unique emails. -/
theorem reachable_uniqueEmails (store : Store) (h : Reachable store) :
    UniqueEmails store := by
  induction h with
  | empty => exact List.nodup_nil
  | step env store session req _ ih => exact handle_uniqueEmails env ⟨store, session⟩ req ih

/-! ## Every outcome gets a response, except a failed mail dispatch -/

/-- C7, failing input: `POST /forgot-password` for Alice's email when the
lookup and the save succeed and `transporter.sendMail` reports an error.  The
token is stored, nothing is flashed and no response is sent. -/
theorem postForgotPassword_mail_failure_no_response :
    postForgotPassword (mailDownEnv 0 "tok") ⟨[alice], freshSession⟩ "a@x.com" =
      ⟨[aliceWithToken], freshSession, none⟩ := by
  decide

/-- The failed mail dispatch is the only outcome of any handler that sends no
response. -/
theorem handle_response_eq_none_iff (env : Env) (st : State) (req : Request) :
    (handle env st req).response = none ↔
      ∃ email, req = .postForgotPassword email ∧ env.findErr = false ∧
        (findOne (byEmail email) st.store).isSome = true ∧ env.saveErr = false ∧
        env.mailErr = true := by
  cases req with
  | postLogin email password =>
    simp only [handle, postLogin, flashRedirect]
    constructor
    · intro h
      split at h
      · cases h
      · split at h
        · cases h
        · split at h <;> cases h
    · rintro ⟨e, he, -⟩; cases he
  | getResetPassword token =>
    simp only [handle, getResetPassword, flashRedirect]
    constructor
    · intro h
      split at h
      · cases h
      · split at h <;> cases h
    · rintro ⟨e, he, -⟩; cases he
  | postResetPassword token password confirmPassword =>
    simp only [handle, postResetPassword, flashRedirect]
    constructor
    · intro h
      split at h
      · cases h
      · split at h
        · cases h
        · split at h
          · cases h
          · split at h
            · cases h
            · split at h <;> cases h
    · rintro ⟨e, he, -⟩; cases he
  | postForgotPassword email =>
    simp only [handle, postForgotPassword, flashRedirect]
    constructor
    · intro h
      split at h
      · cases h
      · rename_i hfind
        split at h
        · cases h
        · rename_i i user hf
          split at h
          · cases h
          · rename_i hs
            split at h
            · rename_i hm
              exact ⟨email, rfl, by simpa using hfind, by simp [hf], by simpa using hs, hm⟩
            · cases h
    · rintro ⟨e, he, hfind, hf, hs, hm⟩
      cases he
      cases hr : findOne (byEmail email) st.store with
      | none => simp [hr] at hf
      | some r => simp [hfind, hs, hm]
  | postSignup name email password confirmpassword =>
    simp only [handle, postSignup, flashRedirect]
    constructor
    · intro h
      split at h
      · cases h
      · split at h
        · cases h
        · split at h
          · cases h
          · split at h
            · cases h
            · split at h <;> cases h
    · rintro ⟨e, he, -⟩; cases he
  | getRoot => simp [handle, getRoot, renderWithMessage]
  | getLogin => simp [handle, getLogin, renderWithMessage]
  | getForgotPassword => simp [handle, getForgotPassword, renderWithMessage]
  | getSignup => simp [handle, getSignup, renderWithMessage]
  | getLogout => simp [handle, getLogout]
  | getHome => simp [handle, getStatic]
  | getAbout => simp [handle, getStatic]
  | getContact => simp [handle, getStatic]
  | other => simp [handle, notFound]

/-! ## The earlier copy `node_auth_app/index.js` -/

/-- Both copies of `POST /reset-password/:token` do the same to the collection. -/
theorem node_auth_app_postResetPassword_store (env : Env) (st : State)
    (token password confirmPassword : String) :
    (node_auth_app.postResetPassword env st token password confirmPassword).store =
      (postResetPassword env st token password confirmPassword).store := by
  unfold node_auth_app.postResetPassword postResetPassword
  by_cases hsame : password = confirmPassword
  · by_cases hfind : env.findErr = true
    · simp [hsame, hfind, flashRedirect]
    · cases hf : findOne (byToken token env.now) st.store with
      | none => simp [hsame, hfind, hf, flashRedirect]
      | some r =>
        cases hh : env.hash confirmPassword with
        | none => simp [hsame, hfind, hf, hh, flashRedirect]
        | some h =>
          by_cases hs : env.saveErr = true <;>
            simp [hsame, hfind, hf, hh, hs, flashRedirect]
  · simp [hsame, flashRedirect]

/-- In the earlier copy a token no record holds is rejected as invalid or
expired by GET, and by POST with matching passwords, also when the lookup
errors. -/
theorem node_auth_app_rejects_of_noHolder (env : Env) (st : State)
    (token password : String) (h : NoHolder st.store token) :
    node_auth_app.getResetPassword env st token = rejectedAsInvalid st ∧
    node_auth_app.postResetPassword env st token password password =
      rejectedAsInvalid st := by
  have hf : findOne (byToken token env.now) st.store = none :=
    (findOne_byToken_eq_none_iff _ _ _).mpr (not_live_of_noHolder _ _ _ h)
  constructor
  · unfold node_auth_app.getResetPassword
    cases env.findErr <;> simp [hf, rejectedAsInvalid]
  · unfold node_auth_app.postResetPassword
    cases env.findErr <;> simp [hf, rejectedAsInvalid]

/-- Both reset-password handlers of the earlier copy always send a response. -/
theorem node_auth_app_reset_responds (env : Env) (st : State)
    (token password confirmPassword : String) :
    (node_auth_app.getResetPassword env st token).response ≠ none ∧
    (node_auth_app.postResetPassword env st token password confirmPassword).response ≠
      none := by
  constructor
  · unfold node_auth_app.getResetPassword
    split <;> simp [flashRedirect]
  · unfold node_auth_app.postResetPassword
    split
    · simp [flashRedirect]
    · split
      · simp [flashRedirect]
      · split
        · simp [flashRedirect]
        · split <;> simp [flashRedirect]

end NodeAuth
